import Mathlib

/-!
# Verification of the nicecmd configuration-binding core

A shallow embedding in Lean 4 of the core of the `nicecmd` Go package:

* `slug` / `screamingSnake` — the name-derivation state machine (slug.go,
  state-machine version);
* `getFieldTags` — the struct-tag annotation parser (reflect.go);
* `recurseStruct` / `bindField` — the recursive schema walker and type
  dispatcher (reflect.go), over a deep embedding of Go field types;
* `applyEnvToFlag` / `applyEnvToCmd` — the environment-variable resolver
  (env.go);
* `checkEnv` — the unbound-environment auditor (checkenv.go).

Go's `panic` during binding is modelled with `Except String`; `os.LookupEnv`
is a `String → Option String` parameter; a `pflag.Value.Set` parser is a
`String → Except String String` field on the flag model.  Character
classification (`unicode.IsUpper` and friends) is modelled faithfully on the
ASCII range, which covers every Go identifier and every literal evaluated in
the theorems below.
-/

deriving instance DecidableEq for Except

namespace Nicecmd

/-! ## Character classes (ASCII fragment of Go's `unicode` package) -/

/-- `unicode.IsUpper` on the ASCII range. -/
def goIsUpper (c : Char) : Bool := 'A' ≤ c && c ≤ 'Z'

/-- `unicode.IsLower` on the ASCII range. -/
def goIsLower (c : Char) : Bool := 'a' ≤ c && c ≤ 'z'

/-- `unicode.ToLower` on the ASCII range. -/
def goToLower (c : Char) : Char :=
  if goIsUpper c then Char.ofNat (c.toNat + 32) else c

/-- `unicode.ToUpper` on the ASCII range. -/
def goToUpper (c : Char) : Char :=
  if goIsLower c then Char.ofNat (c.toNat - 32) else c

/-- `strings.ToUpper` on the ASCII range (character-wise map). -/
def goUpperString (s : String) : String := ⟨s.data.map goToUpper⟩

/-- `unicode.IsPrint` on the ASCII range: the space character plus the
graphic characters `'!'..'~'`. -/
def goIsPrint (c : Char) : Bool := ' ' ≤ c && c ≤ '~'

/-- `unicode.IsSpace` on the ASCII range: `'\t'`, `'\n'`, `'\v'`, `'\f'`,
`'\r'` and `' '`. -/
def goIsSpace (c : Char) : Bool :=
  c = ' ' || c = '\t' || c = '\n' || (c.toNat = 11) || (c.toNat = 12) || c = '\r'

/-- `unicode.IsPunct` on the ASCII range: the characters of Unicode
category P among ASCII. -/
def goIsPunct (c : Char) : Bool :=
  c = '!' || c = '\"' || c = '#' || c = '%' || c = '&' || c = '\'' ||
  c = '(' || c = ')' || c = '*' || c = ',' || c = '-' || c = '.' ||
  c = '/' || c = ':' || c = ';' || c = '?' || c = '@' || c = '[' ||
  c = '\\' || c = ']' || c = '_' || (c.toNat = 123) || (c.toNat = 125)

/-! ## Name derivation (slug.go, state-machine version) -/

/-- The three states of the `slug` state machine (`start`, `word`,
`punct` in the source). -/
inductive SlugState where
  | start
  | word
  | punct
deriving DecidableEq

/-- One pass of the loop body of `slug`.  `notFirst` is `i > 0`; the
lookahead `runes[i+1]` is the head of the remaining list; `acc` is the
string builder `s`. -/
def slugLoop (sep : Char) : List Char → SlugState → Bool → String → String
  | [], _, _, acc => acc
  | r :: rest, state, notFirst, acc =>
    if !goIsPrint r || goIsPunct r || goIsSpace r then
      slugLoop sep rest .punct true acc
    else if state = .punct || goIsUpper r then
      let nextLower := match rest.head? with
        | some c => goIsLower c
        | none => false
      let acc' := if acc.length > 0 && (state ≠ .start || (notFirst && nextLower))
        then acc.push sep else acc
      slugLoop sep rest .start true (acc'.push (goToLower r))
    else
      slugLoop sep rest .word true (acc.push r)

/-- `slug(in, sep)` from slug.go: lowercases an identifier inserting `sep`
at word boundaries, collapsing leading acronym runs. -/
def slug (s : String) (sep : Char) : String :=
  slugLoop sep s.toList .start false ""

/-- `screamingSnake(in) = strings.ToUpper(slug(in, '_'))` from slug.go. -/
def screamingSnake (s : String) : String :=
  goUpperString (slug s '_')

example : slug "CamelCase" '-' = "camel-case" := by decide
example : slug "CamelCamelCase" '-' = "camel-camel-case" := by decide
example : slug "Camel2Camel2Case" '-' = "camel2-camel2-case" := by decide
example : slug "PathToCSV" '-' = "path-to-csv" := by decide
example : slug "CAPath" '-' = "ca-path" := by decide
example : slug "EndsInUppeR" '-' = "ends-in-uppe-r" := by decide
example : slug "eNdSiNLower" '-' = "e-nd-si-n-lower" := by decide
example : slug "ALLUPPER" '-' = "allupper" := by decide
example : slug "alllower" '-' = "alllower" := by decide
example : slug "firstNotLower" '-' = "first-not-lower" := by decide
example : slug "IP" '-' = "ip" := by decide
example : slug "IPMask" '-' = "ip-mask" := by decide
example : screamingSnake "CamelCase" = "CAMEL_CASE" := by decide
example : screamingSnake "Camel2Camel2Case" = "CAMEL2_CAMEL2_CASE" := by decide

/-! ## Go string helpers used by the annotation parser -/

/-- Split a character list at the first occurrence of `sep`, if any. -/
def cutChars (sep : Char) : List Char → Option (List Char × List Char)
  | [] => none
  | c :: cs =>
    if c = sep then some ([], cs)
    else match cutChars sep cs with
      | some (a, b) => some (c :: a, b)
      | none => none

/-- `strings.Cut(s, sep)` for a one-character separator: the parts before
and after the first occurrence, plus whether the separator was found. -/
def goCut (s : String) (sep : Char) : String × String × Bool :=
  match cutChars sep s.data with
  | some (a, b) => (⟨a⟩, ⟨b⟩, true)
  | none => (s, "", false)

/-- Helper for `goSplit`: `cur` is the current segment, reversed. -/
def splitAux (sep : Char) : List Char → List Char → List String
  | [], cur => [⟨cur.reverse⟩]
  | c :: cs, cur =>
    if c = sep then String.mk cur.reverse :: splitAux sep cs []
    else splitAux sep cs (c :: cur)

/-- `strings.Split(s, sep)` for a one-character separator.  Splitting the
empty string yields `[""]`, as in Go. -/
def goSplit (s : String) (sep : Char) : List String := splitAux sep s.data []

/-- `%q` of a plain (escape-free) string: wrap it in double quotes. -/
def goQuote (s : String) : String := "\"" ++ s ++ "\""

example : goCut "foo,f" ',' = ("foo", "f", true) := by decide
example : goCut "foo" ',' = ("foo", "", false) := by decide
example : goCut "a,b,c" ',' = ("a", "b,c", true) := by decide
example : goSplit "" ',' = [""] := by decide
example : goSplit "required,persistent" ',' = ["required", "persistent"] := by decide

/-! ## Struct tags and field options (reflect.go) -/

/-- The raw struct-tag key/value pairs a schema field can carry
(`flag`, `encoding`, `param`, `env`, `usage`).  A key that is absent from
the Go struct tag reads as the empty string, exactly as
`reflect.StructTag.Get` does. -/
structure GoStructTag where
  flag : String := ""
  encoding : String := ""
  param : String := ""
  env : String := ""
  usage : String := ""
deriving DecidableEq, Repr

/-- `fieldOpts` from reflect.go. -/
structure fieldOpts where
  persistent : Bool := false
  required : Bool := false
deriving DecidableEq, Repr

/-- `fieldOpts.Or` from reflect.go. -/
def fieldOpts.Or (opts other : fieldOpts) : fieldOpts :=
  { persistent := opts.persistent || other.persistent
    required := opts.required || other.required }

/-- `fieldTags` from reflect.go.  The Go field `abbrev` is spelled `abbr`
here because `abbrev` is a Lean keyword. -/
structure fieldTags where
  opts : List String
  encoding : String
  name : String
  abbr : String
  env : String
  usage : String
deriving DecidableEq, Repr

/-- `fieldTags.hasOption` from reflect.go. -/
def fieldTags.hasOption (ft : fieldTags) (name : String) : Bool :=
  ft.opts.contains name

/-- `fieldTags.Opts` from reflect.go. -/
def fieldTags.Opts (ft : fieldTags) : fieldOpts :=
  { persistent := ft.hasOption "persistent"
    required := ft.hasOption "required" }

/-- `fieldTags.HasEnv` from reflect.go. -/
def fieldTags.HasEnv (ft : fieldTags) : Bool := ft.env ≠ "-"

/-- `getFieldTags` from reflect.go.  A Go `panic` is an `Except.error`
carrying the panic message. -/
def getFieldTags (paramPrefix envPrefix : String) (fieldName : String)
    (tag : GoStructTag) : Except String fieldTags := do
  let opts := goSplit tag.flag ','
  let encoding := tag.encoding
  let (name0, abbr0, _) := goCut tag.param ','
  let env0 := tag.env
  let usage := tag.usage

  let (name1, abbr1) ←
    if name0.length = 1 then
      if abbr0 ≠ "" then
        .error ("param " ++ goQuote name0 ++ " must be at least two characters")
      else
        .ok ("", name0)
    else
      .ok (name0, abbr0)
  let name2 :=
    if name1 = "" then paramPrefix ++ slug fieldName '-'
    else paramPrefix ++ name1

  if abbr1.length > 1 then
    .error ("abbreviation " ++ goQuote abbr1 ++ " for " ++ goQuote name2 ++
      " must be a single character")
  else

  let env1 ←
    if env0 = "" then
      if envPrefix = "" then .ok "-"
      else .ok (envPrefix ++ screamingSnake fieldName)
    else
      let upper := screamingSnake env0
      if env0 ≠ "-" && env0 ≠ upper then
        .error ("env tag " ++ goQuote env0 ++ " for " ++ goQuote name2 ++
          " must be in SCREAMING_SNAKE_CASE (" ++ goQuote upper ++ ")")
      else
        .ok env0

  .ok { opts := opts, encoding := encoding, name := name2, abbr := abbr1,
        env := env1, usage := usage }

example : getFieldTags "" "TEST_" "FooBarBaz" {} =
    .ok { opts := [""], encoding := "", name := "foo-bar-baz", abbr := "",
          env := "TEST_FOO_BAR_BAZ", usage := "" } := by decide
example : getFieldTags "" "" "Version" {} =
    .ok { opts := [""], encoding := "", name := "version", abbr := "",
          env := "-", usage := "" } := by decide
example : getFieldTags "" "TEST_" "Weather" { param := "w" } =
    .ok { opts := [""], encoding := "", name := "weather", abbr := "w",
          env := "TEST_WEATHER", usage := "" } := by decide
example : (getFieldTags "" "TEST_" "S" { param := "f,b" }).isOk = false := by decide
example : (getFieldTags "" "TEST_" "S" { param := "foo,bar" }).isOk = false := by decide
example : (getFieldTags "" "TEST_" "S" { env := "lowercase" }).isOk = false := by decide

/-! ## Field types and the type dispatcher (reflect.go) -/

/-- The built-in semantic kinds enumerated by the `switch p := in.(type)`
of `recurseStruct`. -/
inductive BuiltinKind where
  | bool | boolSlice | bytes
  | int | intSlice | int8 | int16 | int32 | int32Slice | int64 | int64Slice
  | uint | uintSlice | uint8 | uint16 | uint32 | uint64
  | float32 | float32Slice | float64 | float64Slice
  | string | stringSlice
  | stringToInt | stringToInt64 | stringToString
  | duration | durationSlice
  | ip | ipMask | ipNet
deriving DecidableEq, Repr

/-- A Go type identity (`reflect.Type`), the key of the process-wide
`typeRegs` registry: either one of the types enumerated by the built-in
switch, or some other (named) type identified by a number. -/
inductive TypeId where
  | builtin (k : BuiltinKind)
  | named (n : Nat)
deriving DecidableEq, Repr

mutual
/-- A schema field type as seen by the walker.  A `named` type carries its
identity plus whether its pointer implements `pflag.Value` and whether it
implements both `encoding.TextUnmarshaler` and `encoding.TextMarshaler`; a
`structT` is a named type whose `reflect.Kind` is `Struct`, carrying its
fields. -/
inductive GoType where
  | builtin (k : BuiltinKind)
  | named (n : Nat) (isPflagValue : Bool) (isTextCodec : Bool)
  | structT (n : Nat) (isPflagValue : Bool) (isTextCodec : Bool)
      (fields : List GoStructField)

/-- One declared field of a schema struct: Go field name, struct tag, type. -/
inductive GoStructField where
  | mk (name : String) (tag : GoStructTag) (type' : GoType)
end

/-- The strategy `recurseStruct` selects for one leaf field: a built-in
`pflag` binding, a `RegisterType` registration (`useCustomValue`), the
`pflag.Value` catch-all, or the text-codec extension (`TextVarP`). -/
inductive BindStrategy where
  | builtin (k : BuiltinKind)
  | registry (t : TypeId)
  | pflagValue (n : Nat)
  | textCodec (n : Nat)
deriving DecidableEq, Repr

/-- One registered flag, as produced by `recurseStruct`: the observable
outcome of `fs.XxxVarP`, `MarkFlagRequired` (the `required` field and the
"(required)" usage suffix) and `SetAnnotation` (the `envAnn` field, present
iff `tags.HasEnv()`). -/
structure Param where
  name : String
  abbr : String
  envAnn : Option String
  usage : String
  persistent : Bool
  required : Bool
  strategy : BindStrategy
deriving DecidableEq, Repr

/-- The per-field postlude of the `recurseStruct` loop body: mark the flag
required (appending to its usage) when the merged options say so, and
attach the environment-name annotation when the environment binding is not
suppressed. -/
def mkParam (tags : fieldTags) (opts : fieldOpts) (strategy : BindStrategy) : Param :=
  let usage :=
    if opts.required then
      (if tags.usage.length ≠ 0 then tags.usage ++ " " else tags.usage) ++ "(required)"
    else tags.usage
  { name := tags.name
    abbr := tags.abbr
    envAnn := if tags.HasEnv then some tags.env else none
    usage := usage
    persistent := opts.persistent
    required := opts.required
    strategy := strategy }

/-- The encoding-hint validation of the built-in switch cases of
`recurseStruct`: byte slices demand `base64`/`hex`, `int` demands no
encoding or `count` (the latter additionally demanding a suppressed
environment binding), string slices demand empty/`csv`/`raw` (with `raw`
demanding a suppressed environment binding); every other built-in ignores
the encoding hint.  Panic messages are reproduced verbatim. -/
def builtinBind (tags : fieldTags) (k : BuiltinKind) : Except String BindStrategy :=
  match k with
  | .bytes =>
    if tags.encoding = "base64" || tags.encoding = "hex" then .ok (.builtin .bytes)
    else .error ("expected encoding:\"base64\" or encoding:\"hex\" for bytes slice " ++
      goQuote tags.name ++ ", got encoding " ++ goQuote tags.encoding)
  | .int =>
    if tags.encoding = "" then .ok (.builtin .int)
    else if tags.encoding = "count" then
      if tags.HasEnv then
        .error ("count encoding for " ++ goQuote tags.name ++
          " requires env:\"-\", cannot count env vars")
      else .ok (.builtin .int)
    else
      .error ("expected no encoding or encoding:\"count\" for int " ++
        goQuote tags.name ++ ", got encoding " ++ goQuote tags.encoding)
  | .stringSlice =>
    if tags.encoding = "" || tags.encoding = "csv" then .ok (.builtin .stringSlice)
    else if tags.encoding = "raw" then
      if tags.HasEnv then
        .error ("encoding:\"raw\" for string slice " ++ goQuote tags.name ++
          " requires env:\"-\"")
      else .ok (.builtin .stringSlice)
    else
      .error ("expected encoding:\"csv\" or encoding:\"raw\" for string slice " ++
        goQuote tags.name ++ ", got encoding " ++ goQuote tags.encoding)
  | k => .ok (.builtin k)

mutual
/-- One iteration of the field loop of `recurseStruct` from reflect.go:
parse the annotation, merge inherited options, then dispatch — built-in
switch first, then (default branch, in order) `useCustomValue` against the
registry, the `pflag.Value` catch-all, the text-codec extension, recursion
into non-empty sub-structs, and finally the unsupported-type panic. -/
def bindField (reg : List TypeId) (paramPrefix envPrefix : String)
    (parentOpts : fieldOpts) : GoStructField → Except String (List Param)
  | .mk fieldName tag ty => do
    let tags ← getFieldTags paramPrefix envPrefix fieldName tag
    let opts := tags.Opts.Or parentOpts
    match ty with
    | .builtin k => do
      let s ← builtinBind tags k
      .ok [mkParam tags opts s]
    | .named n pf tc =>
      if reg.contains (.named n) then .ok [mkParam tags opts (.registry (.named n))]
      else if pf then .ok [mkParam tags opts (.pflagValue n)]
      else if tc then .ok [mkParam tags opts (.textCodec n)]
      else .error "unsupported field type"
    | .structT n pf tc fields =>
      if reg.contains (.named n) then .ok [mkParam tags opts (.registry (.named n))]
      else if pf then .ok [mkParam tags opts (.pflagValue n)]
      else if tc then .ok [mkParam tags opts (.textCodec n)]
      else if fields.length > 0 then
        recurseStruct reg (tags.name ++ "-")
          (if tags.HasEnv then tags.env ++ "_" else "") opts fields
      else .error "unsupported field type"

/-- `recurseStruct` from reflect.go, as a fold over the declared fields:
each field contributes its registered flags (or, for a sub-struct, the
flags of the recursive walk) in declaration order; the first panic aborts. -/
def recurseStruct (reg : List TypeId) (paramPrefix envPrefix : String)
    (parentOpts : fieldOpts) : List GoStructField → Except String (List Param)
  | [] => .ok []
  | f :: rest => do
    let ps ← bindField reg paramPrefix envPrefix parentOpts f
    let qs ← recurseStruct reg paramPrefix envPrefix parentOpts rest
    .ok (ps ++ qs)
end

example : recurseStruct [] "" "TEST_" {}
    [.mk "FooBarBaz" {} (.builtin .string)] =
  .ok [{ name := "foo-bar-baz", abbr := "", envAnn := some "TEST_FOO_BAR_BAZ",
         usage := "", persistent := false, required := false,
         strategy := .builtin .string }] := by decide

example : recurseStruct [] "" "TEST_" {}
    [.mk "Level1" {} (.structT 50 false false
      [.mk "Level2" {} (.structT 51 false false
        [.mk "Inner" {} (.builtin .string)])])] =
  .ok [{ name := "level1-level2-inner", abbr := "",
         envAnn := some "TEST_LEVEL1_LEVEL2_INNER",
         usage := "", persistent := false, required := false,
         strategy := .builtin .string }] := by decide

/-! ## Flags at resolution time (env.go) -/

/-- The slice of `pflag.Flag` state that environment resolution reads and
writes.  `value` is the current `flag.Value.String()`; `parse` is the
flag's `Value.Set` method, returning the parse error or the new stored
value; `envAnn`, `usageAnn`, `processed` and `requiredAnn` model the
`nicecmd_env`, `nicecmd_usage`, `nicecmd_processed` and
`cobra.BashCompOneRequiredFlag` annotations. -/
structure GoFlag where
  name : String
  value : String
  changed : Bool
  usage : String
  envAnn : Option String
  usageAnn : Option String
  processed : Bool
  requiredAnn : Bool
  parse : String → Except String String

/-- `FlagError` from env.go: the offending flag (identified here by its
name) together with the underlying parse error. -/
structure FlagError where
  flagName : String
  error : String
deriving DecidableEq, Repr

/-- `ErrInvalidEnvironment` from env.go. -/
structure ErrInvalidEnvironment where
  FlagErrors : List FlagError
deriving DecidableEq, Repr

/-- `ErrInvalidEnvironment.Error` from env.go. -/
def ErrInvalidEnvironment.Error (e : ErrInvalidEnvironment) : String :=
  "invalid environment variables:\n" ++
    String.join (e.FlagErrors.map (fun fe => "  " ++ fe.flagName ++ ": " ++ fe.error ++ "\n"))

/-- `spaceAppend` from env.go. -/
def spaceAppend (s suffix : String) : String :=
  (if s.length > 0 then s ++ " " else s) ++ suffix

/-- `applyEnvToFlag` from env.go, for one flag: skip if already processed;
back up the usage string; if an environment name is attached and
`os.LookupEnv` (the `lookupEnv` parameter) finds it — even with an empty
value — run `Value.Set` on the value, marking the flag changed on success
and producing a `FlagError` on failure, and record the flag as processed.
The usage-string decorations (green/red `env NAME="value"` and
`(required)`) are reproduced verbatim. -/
def applyEnvToFlag (lookupEnv : String → Option String) (flag : GoFlag) :
    GoFlag × Option FlagError :=
  if flag.processed then (flag, none)
  else
    let flag := if flag.usage.length ≠ 0 then { flag with usageAnn := some flag.usage }
      else flag
    let step : GoFlag × Option FlagError :=
      match flag.envAnn with
      | some env =>
        match lookupEnv env with
        | some value =>
          match flag.parse value with
          | .error e =>
            ({ flag with
                usage := spaceAppend flag.usage
                  ("(\x1b[31menv " ++ env ++ "=" ++ goQuote value ++ "\x1b[0m)")
                processed := true },
             some { flagName := flag.name, error := e })
          | .ok v =>
            ({ flag with
                value := v
                changed := true
                usage := spaceAppend flag.usage
                  ("(\x1b[32menv " ++ env ++ "=" ++ goQuote value ++ "\x1b[0m)")
                processed := true },
             none)
        | none =>
          ({ flag with
              usage := spaceAppend flag.usage ("(env " ++ env ++ ")")
              processed := true },
           none)
      | none => (flag, none)
    let flag := step.1
    let err := step.2
    let flag := if flag.requiredAnn then { flag with usage := spaceAppend flag.usage "(required)" }
      else flag
    (flag, err)

/-- The `VisitAll(applyEnvToFlag(cmd, &err.FlagErrors))` traversal inside
`applyEnvToCmd`: every local flag is visited in order, each visit appending
its error (if any) to the accumulated slice. -/
def visitAllApplyEnv (lookupEnv : String → Option String) :
    List GoFlag → List GoFlag × List FlagError
  | [] => ([], [])
  | f :: fs =>
    let (f', e) := applyEnvToFlag lookupEnv f
    let (fs', es) := visitAllApplyEnv lookupEnv fs
    (f' :: fs', e.toList ++ es)

/-- `applyEnvToCmd` from env.go (the resolution part of the hook): visit
all local flags, then fail with the aggregate `ErrInvalidEnvironment`
exactly when at least one field error was collected. -/
def applyEnvToCmd (lookupEnv : String → Option String) (flags : List GoFlag) :
    Except ErrInvalidEnvironment (List GoFlag) :=
  let (flags', errs) := visitAllApplyEnv lookupEnv flags
  if errs.length > 0 then .error { FlagErrors := errs } else .ok flags'

/-! ## Sorting strings byte-wise (for `slices.Sorted` in checkenv.go) -/

/-- Lexicographic less-or-equal on character lists (code-point order,
which agrees with Go's byte-wise string order on ASCII). -/
def lexLeb : List Char → List Char → Bool
  | [], _ => true
  | _ :: _, [] => false
  | a :: as, b :: bs =>
    if a.toNat < b.toNat then true
    else if b.toNat < a.toNat then false
    else lexLeb as bs

/-- Byte-wise string less-or-equal, Go's `<=` on ASCII strings. -/
def strLeb (a b : String) : Bool := lexLeb a.data b.data

/-- Insert a string into a sorted list, keeping it sorted. -/
def insertStr (x : String) : List String → List String
  | [] => [x]
  | y :: ys => if strLeb x y then x :: y :: ys else y :: insertStr x ys

/-- Insertion sort by byte-wise order: the model of
`slices.Sorted(maps.Keys(m))`. -/
def sortStrs : List String → List String
  | [] => []
  | x :: xs => insertStr x (sortStrs xs)

theorem lexLeb_total : ∀ a b, lexLeb a b = true ∨ lexLeb b a = true := by
  intro a
  induction a with
  | nil => intro b; left; rfl
  | cons x xs ih =>
    intro b
    cases b with
    | nil => right; rfl
    | cons y ys =>
      simp only [lexLeb]
      rcases Nat.lt_trichotomy x.toNat y.toNat with h | h | h
      · left; simp [h]
      · have h1 : ¬x.toNat < y.toNat := by omega
        have h2 : ¬y.toNat < x.toNat := by omega
        rcases ih ys with h3 | h3
        · left; simp [h1, h2, h3]
        · right; simp [h1, h2, h3]
      · right; simp [h]

theorem strLeb_total (a b : String) : strLeb a b = true ∨ strLeb b a = true :=
  lexLeb_total a.data b.data

theorem lexLeb_cons (x y : Char) (xs ys : List Char) :
    lexLeb (x :: xs) (y :: ys) = true ↔
      x.toNat < y.toNat ∨ (x.toNat = y.toNat ∧ lexLeb xs ys = true) := by
  simp only [lexLeb]
  by_cases h1 : x.toNat < y.toNat
  · simp [h1]
  · by_cases h2 : y.toNat < x.toNat
    · simp [h1, h2]; omega
    · have h3 : x.toNat = y.toNat := by omega
      simp [h1, h2, h3]

theorem lexLeb_trans : ∀ a b c, lexLeb a b = true → lexLeb b c = true →
    lexLeb a c = true := by
  intro a
  induction a with
  | nil => intro b c _ _; rfl
  | cons x xs ih =>
    intro b c hab hbc
    cases b with
    | nil => simp [lexLeb] at hab
    | cons y ys =>
      cases c with
      | nil => simp [lexLeb] at hbc
      | cons z zs =>
        rw [lexLeb_cons] at hab hbc ⊢
        rcases hab with hab | ⟨hab, hab'⟩
        · rcases hbc with hbc | ⟨hbc, _⟩
          · left; omega
          · left; omega
        · rcases hbc with hbc | ⟨hbc, hbc'⟩
          · left; omega
          · right; exact ⟨by omega, ih ys zs hab' hbc'⟩

theorem strLeb_trans (a b c : String) (h1 : strLeb a b = true)
    (h2 : strLeb b c = true) : strLeb a c = true :=
  lexLeb_trans a.data b.data c.data h1 h2

theorem mem_insertStr (a x : String) (l : List String) :
    a ∈ insertStr x l ↔ a = x ∨ a ∈ l := by
  induction l with
  | nil => simp [insertStr]
  | cons y ys ih =>
    simp only [insertStr]
    split
    · simp
    · simp [ih]; tauto

theorem mem_sortStrs (a : String) (l : List String) :
    a ∈ sortStrs l ↔ a ∈ l := by
  induction l with
  | nil => simp [sortStrs]
  | cons x xs ih => simp [sortStrs, mem_insertStr, ih]

/-- Sortedness of a string list under the byte-wise order. -/
def StrSorted (l : List String) : Prop :=
  l.Pairwise (fun a b => strLeb a b = true)

theorem sorted_insertStr (x : String) (l : List String)
    (h : StrSorted l) : StrSorted (insertStr x l) := by
  induction l with
  | nil => simp [insertStr, StrSorted]
  | cons y ys ih =>
    simp only [insertStr]
    rcases List.pairwise_cons.mp h with ⟨hy, hys⟩
    split
    · rename_i hxy
      refine List.pairwise_cons.mpr ⟨?_, h⟩
      intro b hb
      rcases List.mem_cons.mp hb with rfl | hb
      · exact hxy
      · exact strLeb_trans x y b hxy (hy b hb)
    · rename_i hxy
      have hyx : strLeb y x = true := by
        rcases strLeb_total x y with h1 | h1
        · exact absurd h1 hxy
        · exact h1
      refine List.pairwise_cons.mpr ⟨?_, ih hys⟩
      intro b hb
      rcases (mem_insertStr b x ys).mp hb with rfl | hb
      · exact hyx
      · exact hy b hb

theorem sorted_sortStrs (l : List String) : StrSorted (sortStrs l) := by
  induction l with
  | nil => exact List.Pairwise.nil
  | cons x xs ih => exact sorted_insertStr x (sortStrs xs) ih

/-! ## The unbound-environment auditor (checkenv.go) -/

/-- `ErrUnboundEnvironment` from checkenv.go. -/
structure ErrUnboundEnvironment where
  Names : List String
deriving DecidableEq, Repr

/-- `ErrUnboundEnvironment.Error` from checkenv.go. -/
def ErrUnboundEnvironment.Error (e : ErrUnboundEnvironment) : String :=
  "unbound environment variables:\n" ++
    String.join (e.Names.map (fun n => "  " ++ n ++ "\n"))

/-- `strings.HasPrefix(s, pre)`. -/
def goHasPrefix (s pre : String) : Bool := pre.data.isPrefixOf s.data

/-- The `key, _, ok := strings.Cut(env, "=")` step of `checkEnv`'s scan
over `os.Environ()`: the key of an environment entry, or `none` when the
entry contains no `=`. -/
def envKey (entry : String) : Option String :=
  match goCut entry '=' with
  | (k, _, true) => some k
  | (_, _, false) => none

/-- The `unbound` set of `checkEnv` after the scan and prune phases: the
distinct keys of the process environment that start with the command's
environment prefix and are not claimed by an `annotationEnv` annotation of
any flag on the executing command path. -/
def unboundKeys (environ : List String) (envPrefix : String)
    (pathFlags : List GoFlag) : List String :=
  (((environ.filterMap envKey).filter (fun k => goHasPrefix k envPrefix)).filter
    (fun k => !(pathFlags.filterMap (fun f => f.envAnn)).contains k)).dedup

/-- `checkEnv` from checkenv.go (the check itself): under `--env-lax`
nothing is checked; otherwise compute the unbound set and fail with its
sorted enumeration when it is non-empty.  `environ` models
`os.Environ()`; `pathFlags` models the local flags of the leaf command
and of all its ancestors. -/
def checkEnv (lax : Bool) (environ : List String) (envPrefix : String)
    (pathFlags : List GoFlag) : Option ErrUnboundEnvironment :=
  if lax then none
  else
    let unbound := unboundKeys environ envPrefix pathFlags
    if unbound.length > 0 then some { Names := sortStrs unbound } else none

/-! ## Claim C3: the pinned behaviour of the name deriver -/

/-- C3: `slug` (the `toPhrase` of the spec) is a total deterministic
function of its input, and maps the pinned literals as specified:
`"CamelCase" ↦ "camel-case"`, `"IPMask" ↦ "ip-mask"`, `"IP" ↦ "ip"`,
`"EndsInUppeR" ↦ "ends-in-uppe-r"`, `"ALLUPPER" ↦ "allupper"` with
separator `'-'`. -/
theorem slug_pinned_cases :
    slug "CamelCase" '-' = "camel-case" ∧
    slug "IPMask" '-' = "ip-mask" ∧
    slug "IP" '-' = "ip" ∧
    slug "EndsInUppeR" '-' = "ends-in-uppe-r" ∧
    slug "ALLUPPER" '-' = "allupper" ∧
    (∀ s sep, ∃! out, slug s sep = out) := by
  refine ⟨by decide, by decide, by decide, by decide, by decide, ?_⟩
  intro s sep
  exact ⟨slug s sep, rfl, fun y h => h.symm⟩

/-! ## Claim C1: explicit command-line value versus environment value -/

/-- A string flag that was explicitly set to `"cli"` on the command line
(`changed = true`, the state cobra leaves after parsing `--foo=cli`),
bound to the environment name `NICECMD_TEST_FOO`. -/
def fooFlag : GoFlag :=
  { name := "foo", value := "cli", changed := true, usage := "",
    envAnn := some "NICECMD_TEST_FOO", usageAnn := none, processed := false,
    requiredAnn := false, parse := fun s => .ok s }

/-- A process environment in which `NICECMD_TEST_FOO=env` is set. -/
def fooLookup : String → Option String :=
  fun k => if k = "NICECMD_TEST_FOO" then some "env" else none

/-- C1 (code bug): `applyEnvToFlag` never consults `flag.Changed`, and the
hook it runs in fires after command-line parsing, so an environment value
overwrites an explicitly supplied command-line value: starting from a flag
that carries the explicit value `"cli"` (`changed = true`) with
`NICECMD_TEST_FOO=env` present, resolution leaves the flag holding
`"env"`, not `"cli"` — contradicting the precedence stated in
`BindConfig`'s documentation. -/
theorem applyEnvToFlag_overrides_explicit :
    fooFlag.changed = true ∧ fooFlag.value = "cli" ∧
    fooLookup "NICECMD_TEST_FOO" = some "env" ∧
    (applyEnvToFlag fooLookup fooFlag).1.value = "env" ∧
    (applyEnvToFlag fooLookup fooFlag).1.value ≠ "cli" := by
  refine ⟨rfl, rfl, rfl, ?_, ?_⟩ <;> decide

/-! ## Claim C10: empty-valued environment variables are applied -/

/-- C10: an environment variable that is present with the empty-string
value is treated as set: `applyEnvToFlag` looks the name up with
`os.LookupEnv` (a presence check), feeds the empty string to the flag's
`Set`, marks the flag changed on success, and records a field-level error
on failure — it is never silently skipped. -/
theorem applyEnvToFlag_empty_value_is_set
    (lookupEnv : String → Option String) (flag : GoFlag) (env : String)
    (hp : flag.processed = false)
    (he : flag.envAnn = some env)
    (hv : lookupEnv env = some "") :
    (∀ v, flag.parse "" = .ok v →
      (applyEnvToFlag lookupEnv flag).1.value = v ∧
      (applyEnvToFlag lookupEnv flag).1.changed = true ∧
      (applyEnvToFlag lookupEnv flag).2 = none) ∧
    (∀ e, flag.parse "" = .error e →
      (applyEnvToFlag lookupEnv flag).2 =
        some { flagName := flag.name, error := e }) := by
  constructor
  · intro v hok
    by_cases hu : flag.usage.length ≠ 0 <;>
      by_cases hr : flag.requiredAnn <;>
        simp [applyEnvToFlag, hp, he, hv, hok, hu, hr]
  · intro e herr
    by_cases hu : flag.usage.length ≠ 0 <;>
      by_cases hr : flag.requiredAnn <;>
        simp [applyEnvToFlag, hp, he, hv, herr, hu, hr]

/-- A string flag bound to `E_OK` whose `Set` accepts anything. -/
def emptyOkFlag : GoFlag :=
  { name := "ok", value := "default", changed := false, usage := "",
    envAnn := some "E_OK", usageAnn := none, processed := false,
    requiredAnn := false, parse := fun s => .ok s }

/-- An int-like flag bound to `E_BAD` whose `Set` rejects the empty
string. -/
def emptyBadFlag : GoFlag :=
  { name := "bad", value := "0", changed := false, usage := "",
    envAnn := some "E_BAD", usageAnn := none, processed := false,
    requiredAnn := false,
    parse := fun s => if s = "" then .error "invalid syntax" else .ok s }

/-- An environment where both `E_OK` and `E_BAD` are set to the empty
string. -/
def emptyLookup : String → Option String :=
  fun k => if k = "E_OK" || k = "E_BAD" then some "" else none

/-- Witness for C10 at concrete inputs: the empty `E_OK` value is parsed
and marks the flag changed; the empty `E_BAD` value yields a recorded
field error. -/
theorem applyEnvToFlag_empty_value_is_set_witness :
    ((applyEnvToFlag emptyLookup emptyOkFlag).1.value = "" ∧
      (applyEnvToFlag emptyLookup emptyOkFlag).1.changed = true ∧
      (applyEnvToFlag emptyLookup emptyOkFlag).2 = none) ∧
    (applyEnvToFlag emptyLookup emptyBadFlag).2 =
      some { flagName := "bad", error := "invalid syntax" } := by
  constructor
  · exact (applyEnvToFlag_empty_value_is_set emptyLookup emptyOkFlag "E_OK"
      rfl rfl rfl).1 "" rfl
  · exact (applyEnvToFlag_empty_value_is_set emptyLookup emptyBadFlag "E_BAD"
      rfl rfl rfl).2 "invalid syntax" rfl

/-! ## Claim C6: aggregation of environment parse errors -/

/-- C6: resolution does not stop at the first failure.  The traversal
processes every flag (each final flag state is exactly `applyEnvToFlag` of
that flag, independent of the others, so successfully parsed values are
still applied), collects one `FlagError` per failing flag in order, and
`applyEnvToCmd` fails — with exactly that aggregate list — if and only if
at least one field-level error was recorded. -/
theorem applyEnvToCmd_aggregates (lookupEnv : String → Option String)
    (flags : List GoFlag) :
    visitAllApplyEnv lookupEnv flags =
      (flags.map (fun f => (applyEnvToFlag lookupEnv f).1),
       flags.filterMap (fun f => (applyEnvToFlag lookupEnv f).2)) ∧
    ((applyEnvToCmd lookupEnv flags).isOk = true ↔
      ∀ f ∈ flags, (applyEnvToFlag lookupEnv f).2 = none) ∧
    (∀ e, applyEnvToCmd lookupEnv flags = .error e →
      e.FlagErrors = flags.filterMap (fun f => (applyEnvToFlag lookupEnv f).2) ∧
      e.FlagErrors ≠ []) := by
  have h1 : visitAllApplyEnv lookupEnv flags =
      (flags.map (fun f => (applyEnvToFlag lookupEnv f).1),
       flags.filterMap (fun f => (applyEnvToFlag lookupEnv f).2)) := by
    induction flags with
    | nil => rfl
    | cons f fs ih =>
      simp only [visitAllApplyEnv, ih, List.map_cons, List.filterMap_cons]
      cases h : (applyEnvToFlag lookupEnv f).2 <;> simp [h]
  have h2 : applyEnvToCmd lookupEnv flags =
      (if (flags.filterMap (fun f => (applyEnvToFlag lookupEnv f).2)).length > 0
       then .error { FlagErrors :=
         flags.filterMap (fun f => (applyEnvToFlag lookupEnv f).2) }
       else .ok (flags.map (fun f => (applyEnvToFlag lookupEnv f).1))) := by
    rw [applyEnvToCmd, h1]
  refine ⟨h1, ?_, ?_⟩
  · rw [h2]
    by_cases h : (flags.filterMap (fun f => (applyEnvToFlag lookupEnv f).2)).length > 0
    · rw [if_pos h]
      simp only [Except.isOk, Except.toBool]
      constructor
      · intro hok; cases hok
      · intro hall
        rw [List.filterMap_eq_nil_iff.mpr hall] at h
        simp at h
    · rw [if_neg h]
      have hnil : flags.filterMap (fun f => (applyEnvToFlag lookupEnv f).2) = [] := by
        cases hc : flags.filterMap (fun f => (applyEnvToFlag lookupEnv f).2) with
        | nil => rfl
        | cons a l => rw [hc] at h; simp at h
      simp only [Except.isOk, Except.toBool, true_iff]
      exact List.filterMap_eq_nil_iff.mp hnil
  · intro e he
    rw [h2] at he
    by_cases h : (flags.filterMap (fun f => (applyEnvToFlag lookupEnv f).2)).length > 0
    · rw [if_pos h] at he
      cases he
      refine ⟨rfl, ?_⟩
      intro hnil
      simp only at hnil
      rw [hnil] at h
      simp at h
    · rw [if_neg h] at he
      cases he

/-- A string flag bound to `A_GOOD` whose `Set` accepts anything. -/
def aggGoodFlag : GoFlag :=
  { name := "good", value := "d", changed := false, usage := "",
    envAnn := some "A_GOOD", usageAnn := none, processed := false,
    requiredAnn := false, parse := fun s => .ok s }

/-- An int-like flag bound to `A_BAD` whose `Set` rejects `"oops"`. -/
def aggBadFlag : GoFlag :=
  { name := "bad", value := "0", changed := false, usage := "",
    envAnn := some "A_BAD", usageAnn := none, processed := false,
    requiredAnn := false,
    parse := fun s => if s = "oops" then .error "invalid syntax" else .ok s }

/-- An environment with `A_GOOD=v` and `A_BAD=oops`. -/
def aggLookup : String → Option String :=
  fun k => if k = "A_GOOD" then some "v"
    else if k = "A_BAD" then some "oops" else none

/-- Witness for C6 at a concrete two-flag command: the failing flag's
error is the whole aggregate, the aggregate is non-empty, and the
successfully parsed flag was still applied. -/
theorem applyEnvToCmd_aggregates_witness :
    (({ FlagErrors := [{ flagName := "bad", error := "invalid syntax" }] } :
        ErrInvalidEnvironment).FlagErrors =
      [aggGoodFlag, aggBadFlag].filterMap
        (fun f => (applyEnvToFlag aggLookup f).2) ∧
     ({ FlagErrors := [{ flagName := "bad", error := "invalid syntax" }] } :
        ErrInvalidEnvironment).FlagErrors ≠ []) ∧
    (applyEnvToFlag aggLookup aggGoodFlag).1.value = "v" ∧
    (applyEnvToFlag aggLookup aggGoodFlag).1.changed = true := by
  refine ⟨(applyEnvToCmd_aggregates aggLookup [aggGoodFlag, aggBadFlag]).2.2
    { FlagErrors := [{ flagName := "bad", error := "invalid syntax" }] } rfl,
    by decide, by decide⟩

/-! ## Claim C5: the unbound-environment auditor -/

theorem mem_unboundKeys (environ : List String) (envPrefix : String)
    (pathFlags : List GoFlag) (k : String) :
    k ∈ unboundKeys environ envPrefix pathFlags ↔
      (∃ e ∈ environ, envKey e = some k) ∧ goHasPrefix k envPrefix = true ∧
        k ∉ pathFlags.filterMap (fun f => f.envAnn) := by
  simp [unboundKeys, List.mem_dedup, List.mem_filter, List.mem_filterMap,
    and_assoc]
  exact fun x _ _ => and_comm

/-- C5: in strict mode (`--env-lax` not set) `checkEnv` fails if and only
if some environment entry's key starts with the command's environment
prefix yet is not claimed as `annotationEnv` by any flag on the executing
command path, and the error enumerates exactly the unclaimed keys in
sorted order; in lax mode the check is suspended and always succeeds. -/
theorem checkEnv_strict_iff (environ : List String) (envPrefix : String)
    (pathFlags : List GoFlag) :
    checkEnv true environ envPrefix pathFlags = none ∧
    ((checkEnv false environ envPrefix pathFlags).isSome = true ↔
      ∃ e ∈ environ, ∃ k, envKey e = some k ∧ goHasPrefix k envPrefix = true ∧
        k ∉ pathFlags.filterMap (fun f => f.envAnn)) ∧
    (∀ err, checkEnv false environ envPrefix pathFlags = some err →
      (∀ k, k ∈ err.Names ↔
        (∃ e ∈ environ, envKey e = some k) ∧ goHasPrefix k envPrefix = true ∧
          k ∉ pathFlags.filterMap (fun f => f.envAnn)) ∧
      StrSorted err.Names) := by
  have hbridge : (∃ x, x ∈ unboundKeys environ envPrefix pathFlags) ↔
      (∃ e ∈ environ, ∃ k, envKey e = some k ∧ goHasPrefix k envPrefix = true ∧
        k ∉ pathFlags.filterMap (fun f => f.envAnn)) := by
    constructor
    · rintro ⟨k, hk⟩
      obtain ⟨⟨e, he, hek⟩, hpre, hncl⟩ := (mem_unboundKeys _ _ _ k).mp hk
      exact ⟨e, he, k, hek, hpre, hncl⟩
    · rintro ⟨e, he, k, hek, hpre, hncl⟩
      exact ⟨k, (mem_unboundKeys _ _ _ k).mpr ⟨⟨e, he, hek⟩, hpre, hncl⟩⟩
  refine ⟨rfl, ?_, ?_⟩
  · rw [show checkEnv false environ envPrefix pathFlags =
        (if (unboundKeys environ envPrefix pathFlags).length > 0
         then some { Names := sortStrs (unboundKeys environ envPrefix pathFlags) }
         else none) from rfl]
    by_cases h : (unboundKeys environ envPrefix pathFlags).length > 0
    · rw [if_pos h]
      simp only [Option.isSome_some, true_iff]
      rw [← hbridge]
      cases hc : unboundKeys environ envPrefix pathFlags with
      | nil => rw [hc] at h; simp at h
      | cons a l => exact ⟨a, hc ▸ List.mem_cons_self a l⟩
    · rw [if_neg h]
      simp only [Option.isSome_none, Bool.false_eq_true, false_iff]
      rw [← hbridge]
      rintro ⟨k, hk⟩
      exact h (List.length_pos.mpr (List.ne_nil_of_mem hk))
  · intro err herr
    rw [show checkEnv false environ envPrefix pathFlags =
        (if (unboundKeys environ envPrefix pathFlags).length > 0
         then some { Names := sortStrs (unboundKeys environ envPrefix pathFlags) }
         else none) from rfl] at herr
    by_cases h : (unboundKeys environ envPrefix pathFlags).length > 0
    · rw [if_pos h] at herr
      cases herr
      constructor
      · intro k
        rw [show ({ Names := sortStrs (unboundKeys environ envPrefix pathFlags) } :
            ErrUnboundEnvironment).Names =
          sortStrs (unboundKeys environ envPrefix pathFlags) from rfl]
        rw [mem_sortStrs, mem_unboundKeys]
      · exact sorted_sortStrs _
    · rw [if_neg h] at herr
      cases herr

/-- The flag that claims `PREFIX_FOO` in the C5 scenario. -/
def demoFooFlag : GoFlag :=
  { name := "foo", value := "x", changed := true, usage := "",
    envAnn := some "PREFIX_FOO", usageAnn := none, processed := true,
    requiredAnn := false, parse := fun s => .ok s }

/-- The process environment of the C5 scenario: `PREFIX_FOO=x` (bound)
and `PREFIX_BOGUS=y` (unbound). -/
def demoEnviron : List String := ["PREFIX_FOO=x", "PREFIX_BOGUS=y"]

/-- Witness for C5 at the pinned scenario: strict mode fails listing
exactly `["PREFIX_BOGUS"]`; lax mode succeeds. -/
theorem checkEnv_strict_iff_witness :
    checkEnv false demoEnviron "PREFIX_" [demoFooFlag] =
      some { Names := ["PREFIX_BOGUS"] } ∧
    checkEnv true demoEnviron "PREFIX_" [demoFooFlag] = none := by
  refine ⟨by decide, (checkEnv_strict_iff demoEnviron "PREFIX_" [demoFooFlag]).1⟩

/-! ## Claim C4: derived environment names and prefix propagation -/

/-- The parameter the walker registers for `Level1.Level2.Inner` when no
environment prefix is in effect. -/
def innerNoEnvParam : Param :=
  { name := "level1-level2-inner", abbr := "", envAnn := none, usage := "",
    persistent := false, required := false, strategy := .builtin .string }

/-- The two-level nested schema of the C4 scenario:
`Level1.Level2.Inner`. -/
def level2Schema : List GoStructField :=
  [.mk "Level1" {} (.structT 50 false false
    [.mk "Level2" {} (.structT 51 false false
      [.mk "Inner" {} (.builtin .string)])])]

/-- C4: a field without an explicit `env` annotation derives
`envPrefix ++ screamingSnake(fieldName)` as its environment name, or a
suppressed binding (`"-"`) when no environment prefix is in effect; the
walker extends the prefix per nesting level, so `Level1.Level2.Inner`
under prefix `TEST` binds `TEST_LEVEL1_LEVEL2_INNER`, and without a
prefix the nested leaf has no environment annotation at all. -/
theorem env_name_derivation :
    (∀ paramPrefix envPrefix fieldName tag tags,
      tag.env = "" →
      getFieldTags paramPrefix envPrefix fieldName tag = .ok tags →
      tags.env = (if envPrefix = "" then "-"
        else envPrefix ++ screamingSnake fieldName) ∧
      (envPrefix = "" → tags.HasEnv = false)) ∧
    recurseStruct [] "" "TEST_" {} level2Schema =
      .ok [{ name := "level1-level2-inner", abbr := "",
             envAnn := some "TEST_LEVEL1_LEVEL2_INNER", usage := "",
             persistent := false, required := false,
             strategy := .builtin .string }] ∧
    (∃ p, recurseStruct [] "" "" {} level2Schema = .ok [p] ∧
      p.envAnn = none) := by
  refine ⟨?_, by decide, ?_⟩
  · intro pp ep fn tag tags henv hok
    have hmain : tags.env = (if ep = "" then "-" else ep ++ screamingSnake fn) := by
      by_cases hep : ep = "" <;>
        simp only [getFieldTags, henv, hep, if_true, bind, Except.bind,
          reduceIte] at hok <;>
        (repeat' split at hok) <;>
        cases hok <;>
        simp [hep]
    refine ⟨hmain, ?_⟩
    intro hep
    rw [fieldTags.HasEnv, hmain, if_pos hep]
    decide
  · exact ⟨innerNoEnvParam, by decide, rfl⟩

/-- Witness for C4 at concrete inputs: field `FooBarBaz` with no `env`
annotation under prefix `TEST_` derives `TEST_FOO_BAR_BAZ`, and derives
the suppressed name `"-"` when no prefix is in effect. -/
theorem env_name_derivation_witness :
    ({ opts := [""], encoding := "", name := "foo-bar-baz", abbr := "",
       env := "TEST_FOO_BAR_BAZ", usage := "" } : fieldTags).env =
      "TEST_FOO_BAR_BAZ" ∧
    ({ opts := [""], encoding := "", name := "foo-bar-baz", abbr := "",
       env := "-", usage := "" } : fieldTags).HasEnv = false := by
  constructor
  · have h := (env_name_derivation.1 "" "TEST_" "FooBarBaz" {}
      { opts := [""], encoding := "", name := "foo-bar-baz", abbr := "",
        env := "TEST_FOO_BAR_BAZ", usage := "" } rfl (by decide)).1
    rw [h]; decide
  · exact (env_name_derivation.1 "" "" "FooBarBaz" {}
      { opts := [""], encoding := "", name := "foo-bar-baz", abbr := "",
        env := "-", usage := "" } rfl (by decide)).2 rfl

/-! ## Claim C7: annotation validation rules -/

/-- C7: the four pinned validation rules of `getFieldTags`, stated over
the cut of the `param` tag into a name slot `nm` and an abbreviation slot
`ab`: (1) a one-character name slot together with an abbreviation aborts
with "must be at least two characters"; (2) a one-character name slot
alone is reinterpreted as the abbreviation, the long name falling back to
the derived default, with no error for any valid `env` tag; (3) an
abbreviation longer than one character aborts with "must be a single
character"; (4) an explicit `env` tag that is neither `"-"` nor already in
SCREAMING_SNAKE_CASE aborts with an error naming that convention. -/
theorem getFieldTags_validation (paramPrefix envPrefix fieldName : String)
    (tag : GoStructTag) (nm ab : String) (fnd : Bool)
    (hcut : goCut tag.param ',' = (nm, ab, fnd)) :
    (nm.length = 1 → ab ≠ "" →
      getFieldTags paramPrefix envPrefix fieldName tag =
        .error ("param " ++ goQuote nm ++ " must be at least two characters")) ∧
    (nm.length = 1 → ab = "" →
      ((tag.env = "" ∨ tag.env = "-" ∨ tag.env = screamingSnake tag.env) →
        (getFieldTags paramPrefix envPrefix fieldName tag).isOk = true) ∧
      (∀ tags, getFieldTags paramPrefix envPrefix fieldName tag = .ok tags →
        tags.abbr = nm ∧ tags.name = paramPrefix ++ slug fieldName '-')) ∧
    (nm.length ≠ 1 → ab.length > 1 →
      getFieldTags paramPrefix envPrefix fieldName tag =
        .error ("abbreviation " ++ goQuote ab ++ " for " ++
          goQuote (if nm = "" then paramPrefix ++ slug fieldName '-'
            else paramPrefix ++ nm) ++
          " must be a single character")) ∧
    (nm.length ≠ 1 → ¬ab.length > 1 →
      tag.env ≠ "" → tag.env ≠ "-" → tag.env ≠ screamingSnake tag.env →
      getFieldTags paramPrefix envPrefix fieldName tag =
        .error ("env tag " ++ goQuote tag.env ++ " for " ++
          goQuote (if nm = "" then paramPrefix ++ slug fieldName '-'
            else paramPrefix ++ nm) ++
          " must be in SCREAMING_SNAKE_CASE (" ++
          goQuote (screamingSnake tag.env) ++ ")")) := by
  refine ⟨?_, ?_, ?_, ?_⟩
  · intro hlen hab
    simp [getFieldTags, hcut, hlen, hab, bind, Except.bind]
  · intro hlen hab
    constructor
    · intro henv
      by_cases h0 : tag.env = ""
      · by_cases hep : envPrefix = "" <;>
          simp [getFieldTags, hcut, hlen, hab, h0, hep, bind, Except.bind,
            Except.isOk, Except.toBool]
      · by_cases h1 : tag.env = "-"
        · simp [getFieldTags, hcut, hlen, hab, h0, h1, bind, Except.bind,
            Except.isOk, Except.toBool]
        · have h2 : tag.env = screamingSnake tag.env := by tauto
          simp [getFieldTags, hcut, hlen, hab, h0, h1, ← h2, bind, Except.bind,
            Except.isOk, Except.toBool]
    · intro tags hok
      simp only [getFieldTags, hcut, hlen, hab, bind, Except.bind,
        reduceIte] at hok
      (repeat' split at hok) <;> cases hok <;> simp
  · intro hlen hab
    simp [getFieldTags, hcut, hlen, hab, bind, Except.bind]
  · intro hlen hab he1 he2 he3
    simp [getFieldTags, hcut, hlen, hab, he1, he2, he3, bind, Except.bind]

/-- The tags derived for field `Weather` with `param:"w"` under prefix
`TEST_`. -/
def weatherTags : fieldTags :=
  { opts := [""], encoding := "", name := "weather", abbr := "w",
    env := "TEST_WEATHER", usage := "" }

/-- Witness for C7 at the concrete tags of the repository's own tests:
`param:"f,b"`, `param:"w"`, `param:"foo,bar"` and `env:"lowercase"`. -/
theorem getFieldTags_validation_witness :
    getFieldTags "" "TEST_" "S" { param := "f,b" } =
      .error "param \"f\" must be at least two characters" ∧
    (∃ tags, getFieldTags "" "TEST_" "Weather" { param := "w" } = .ok tags ∧
      tags.abbr = "w" ∧ tags.name = "weather") ∧
    getFieldTags "" "TEST_" "S" { param := "foo,bar" } =
      .error "abbreviation \"bar\" for \"foo\" must be a single character" ∧
    getFieldTags "" "TEST_" "S" { env := "lowercase" } =
      .error "env tag \"lowercase\" for \"s\" must be in SCREAMING_SNAKE_CASE (\"LOWERCASE\")" := by
  refine ⟨?_, ?_, ?_, ?_⟩
  · rw [(getFieldTags_validation "" "TEST_" "S" { param := "f,b" } "f" "b" true
      (by decide)).1 (by decide) (by decide)]
    decide
  · refine ⟨weatherTags, by decide, ?_⟩
    have h := ((getFieldTags_validation "" "TEST_" "Weather"
      { param := "w" } "w" "" false (by decide)).2.1 (by decide) rfl).2
      weatherTags (by decide)
    exact ⟨h.1, by rw [h.2]; decide⟩
  · rw [(getFieldTags_validation "" "TEST_" "S" { param := "foo,bar" } "foo" "bar"
      true (by decide)).2.2.1 (by decide) (by decide)]
    decide
  · rw [(getFieldTags_validation "" "TEST_" "S" { env := "lowercase" } "" "" false
      (by decide)).2.2.2 (by decide) (by decide) (by decide) (by decide) (by decide)]
    decide

/-! ## Claim C8: encoding hints and suppressed environment bindings -/

/-- C8: for an `int` field with the `count` encoding and a string-slice
field with the `raw` encoding, binding succeeds exactly when the
environment binding is suppressed and aborts with the pinned schema error
otherwise; an encoding hint outside the allowed set of the semantic type
(`base64`/`hex` for byte slices, empty/`count` for `int`,
empty/`csv`/`raw` for string slices) aborts with a schema error naming
the offending encoding. -/
theorem encoding_rules (reg : List TypeId) (paramPrefix envPrefix : String)
    (parentOpts : fieldOpts) (fieldName : String) (tag : GoStructTag)
    (tags : fieldTags)
    (hok : getFieldTags paramPrefix envPrefix fieldName tag = .ok tags) :
    (tags.encoding = "count" →
      (tags.HasEnv = true →
        bindField reg paramPrefix envPrefix parentOpts
            (.mk fieldName tag (.builtin .int)) =
          .error ("count encoding for " ++ goQuote tags.name ++
            " requires env:\"-\", cannot count env vars")) ∧
      (tags.HasEnv = false →
        bindField reg paramPrefix envPrefix parentOpts
            (.mk fieldName tag (.builtin .int)) =
          .ok [mkParam tags (tags.Opts.Or parentOpts) (.builtin .int)])) ∧
    (tags.encoding = "raw" →
      (tags.HasEnv = true →
        bindField reg paramPrefix envPrefix parentOpts
            (.mk fieldName tag (.builtin .stringSlice)) =
          .error ("encoding:\"raw\" for string slice " ++ goQuote tags.name ++
            " requires env:\"-\"")) ∧
      (tags.HasEnv = false →
        bindField reg paramPrefix envPrefix parentOpts
            (.mk fieldName tag (.builtin .stringSlice)) =
          .ok [mkParam tags (tags.Opts.Or parentOpts) (.builtin .stringSlice)])) ∧
    (tags.encoding ≠ "base64" → tags.encoding ≠ "hex" →
      bindField reg paramPrefix envPrefix parentOpts
          (.mk fieldName tag (.builtin .bytes)) =
        .error ("expected encoding:\"base64\" or encoding:\"hex\" for bytes slice " ++
          goQuote tags.name ++ ", got encoding " ++ goQuote tags.encoding)) ∧
    (tags.encoding ≠ "" → tags.encoding ≠ "count" →
      bindField reg paramPrefix envPrefix parentOpts
          (.mk fieldName tag (.builtin .int)) =
        .error ("expected no encoding or encoding:\"count\" for int " ++
          goQuote tags.name ++ ", got encoding " ++ goQuote tags.encoding)) ∧
    (tags.encoding ≠ "" → tags.encoding ≠ "csv" → tags.encoding ≠ "raw" →
      bindField reg paramPrefix envPrefix parentOpts
          (.mk fieldName tag (.builtin .stringSlice)) =
        .error ("expected encoding:\"csv\" or encoding:\"raw\" for string slice " ++
          goQuote tags.name ++ ", got encoding " ++ goQuote tags.encoding)) := by
  refine ⟨?_, ?_, ?_, ?_, ?_⟩
  · intro henc
    constructor <;> intro hE <;>
      simp [bindField, hok, bind, Except.bind, builtinBind, henc, hE]
  · intro henc
    constructor <;> intro hE <;>
      simp [bindField, hok, bind, Except.bind, builtinBind, henc, hE]
  · intro h1 h2
    simp [bindField, hok, bind, Except.bind, builtinBind, h1, h2]
  · intro h1 h2
    simp [bindField, hok, bind, Except.bind, builtinBind, h1, h2]
  · intro h1 h2 h3
    simp [bindField, hok, bind, Except.bind, builtinBind, h1, h2, h3]

/-- The tags of an `int` field `IntCount` with `encoding:"count"` and
`env:"-"`. -/
def intCountTags : fieldTags :=
  { opts := [""], encoding := "count", name := "int-count", abbr := "",
    env := "-", usage := "" }

/-- The tags of an `int` field `IntCount` with `encoding:"count"` and a
derived environment name. -/
def intCountEnvTags : fieldTags :=
  { opts := [""], encoding := "count", name := "int-count", abbr := "",
    env := "TEST_INT_COUNT", usage := "" }

/-- The tags of a byte-slice field `Bytes` with `encoding:"foo"`. -/
def bytesFooTags : fieldTags :=
  { opts := [""], encoding := "foo", name := "bytes", abbr := "",
    env := "TEST_BYTES", usage := "" }

/-- Witness for C8 at the concrete schemas of the repository's own tests:
`encoding:"count"` with and without `env:"-"`, `encoding:"raw"` without
`env:"-"`, and a byte slice with `encoding:"foo"`. -/
theorem encoding_rules_witness :
    bindField [] "" "TEST_" {} (.mk "IntCount"
        { encoding := "count", env := "-" } (.builtin .int)) =
      .ok [mkParam intCountTags intCountTags.Opts (.builtin .int)] ∧
    bindField [] "" "TEST_" {} (.mk "IntCount"
        { encoding := "count" } (.builtin .int)) =
      .error "count encoding for \"int-count\" requires env:\"-\", cannot count env vars" ∧
    bindField [] "" "TEST_" {} (.mk "StringsRaw"
        { encoding := "raw" } (.builtin .stringSlice)) =
      .error "encoding:\"raw\" for string slice \"strings-raw\" requires env:\"-\"" ∧
    bindField [] "" "TEST_" {} (.mk "Bytes"
        { encoding := "foo" } (.builtin .bytes)) =
      .error "expected encoding:\"base64\" or encoding:\"hex\" for bytes slice \"bytes\", got encoding \"foo\"" := by
  refine ⟨?_, ?_, ?_, ?_⟩
  · have h := ((encoding_rules [] "" "TEST_" {} "IntCount"
      { encoding := "count", env := "-" } intCountTags (by decide)).1 rfl).2 rfl
    rw [h]
    rfl
  · have h := ((encoding_rules [] "" "TEST_" {} "IntCount"
      { encoding := "count" } intCountEnvTags (by decide)).1 rfl).1 (by decide)
    rw [h]
    decide
  · have h := ((encoding_rules [] "" "TEST_" {} "StringsRaw"
      { encoding := "raw" }
      { opts := [""], encoding := "raw", name := "strings-raw", abbr := "",
        env := "TEST_STRINGS_RAW", usage := "" } (by decide)).2.1 rfl).1 (by decide)
    rw [h]
    decide
  · have h := (encoding_rules [] "" "TEST_" {} "Bytes"
      { encoding := "foo" } bytesFooTags (by decide)).2.2.1 (by decide) (by decide)
    rw [h]
    decide

/-! ## Claim C2: registry precedence in type dispatch -/

/-- A registry in which the built-in type `int` has a `RegisterType`
registration. -/
def intRegistry : List TypeId := [.builtin .int]

/-- A schema with a single field `Foo` of the built-in type `int`. -/
def intFooSchema : List GoStructField := [.mk "Foo" {} (.builtin .int)]

/-- The parameter the walker registers for `Foo` — bound through the
built-in `IntVarP` case, not through the registry. -/
def intFooParam : Param :=
  { name := "foo", abbr := "", envAnn := some "TEST_FOO", usage := "",
    persistent := false, required := false, strategy := .builtin .int }

/-- C2 counterexample: the built-in type switch runs before
`useCustomValue`, so a `RegisterType` registration for the exact type
`int` is never consulted — the field is bound with the built-in `int`
parser, not the registered one, refuting the claim that a registration
for a type that also matches a native built-in kind takes precedence. -/
theorem registry_builtin_not_consulted :
    TypeId.builtin .int ∈ intRegistry ∧
    recurseStruct intRegistry "" "TEST_" {} intFooSchema = .ok [intFooParam] ∧
    intFooParam.strategy = .builtin .int ∧
    intFooParam.strategy ≠ .registry (.builtin .int) := by
  refine ⟨List.mem_singleton.mpr rfl, by decide, rfl, by decide⟩

/-- C2 amended: for every field whose type is not one of the built-in
switch cases (a named non-struct type or a struct type), a `TypeRegistry`
registration for that exact type takes precedence over the `pflag.Value`
catch-all, the text-codec extension and struct recursion: the registered
parser is the one bound; for a type matching a built-in switch case the
built-in binding is used and the registry is never consulted. -/
theorem registry_precedence_default_branch (reg : List TypeId)
    (paramPrefix envPrefix : String) (parentOpts : fieldOpts)
    (fieldName : String) (tag : GoStructTag) (tags : fieldTags)
    (hok : getFieldTags paramPrefix envPrefix fieldName tag = .ok tags)
    (n : Nat) (hreg : TypeId.named n ∈ reg) :
    (∀ pf tc, bindField reg paramPrefix envPrefix parentOpts
        (.mk fieldName tag (.named n pf tc)) =
      .ok [mkParam tags (tags.Opts.Or parentOpts) (.registry (.named n))]) ∧
    (∀ pf tc fields, bindField reg paramPrefix envPrefix parentOpts
        (.mk fieldName tag (.structT n pf tc fields)) =
      .ok [mkParam tags (tags.Opts.Or parentOpts) (.registry (.named n))]) := by
  have hc : reg.contains (.named n) = true := by
    simpa using hreg
  constructor
  · intro pf tc
    simp [bindField, hok, bind, Except.bind, hc, hreg]
  · intro pf tc fields
    simp [bindField, hok, bind, Except.bind, hc, hreg]

/-- The tags derived for field `Foo` with no annotations under prefix
`TEST_`. -/
def fooPlainTags : fieldTags :=
  { opts := [""], encoding := "", name := "foo", abbr := "",
    env := "TEST_FOO", usage := "" }

/-- Witness for the amended C2: with the named type 7 registered, a field
of that type is bound through the registry even though it also implements
`pflag.Value` and the text codec, and even when it is a non-empty struct
that would otherwise be recursed into. -/
theorem registry_precedence_default_branch_witness :
    bindField [.named 7] "" "TEST_" {} (.mk "Foo" {} (.named 7 true true)) =
      .ok [mkParam fooPlainTags fooPlainTags.Opts (.registry (.named 7))] ∧
    bindField [.named 7] "" "TEST_" {}
        (.mk "Foo" {} (.structT 7 true true [.mk "Inner" {} (.builtin .string)])) =
      .ok [mkParam fooPlainTags fooPlainTags.Opts (.registry (.named 7))] := by
  constructor
  · rw [(registry_precedence_default_branch [.named 7] "" "TEST_" {} "Foo" {}
      fooPlainTags (by decide) 7 (List.mem_singleton.mpr rfl)).1 true true]
    rfl
  · rw [(registry_precedence_default_branch [.named 7] "" "TEST_" {} "Foo" {}
      fooPlainTags (by decide) 7 (List.mem_singleton.mpr rfl)).2 true true
      [.mk "Inner" {} (.builtin .string)]]
    rfl

/-! ## Claim C9: inherited options only ever add, never subtract -/

/-- How a leaf parameter produced under inherited options `p` relates to
the one produced under `p.Or q`: identical except that `q` is OR-ed into
both option flags. -/
def paramOrRel (q : fieldOpts) (p' p : Param) : Prop :=
  p'.name = p.name ∧ p'.abbr = p.abbr ∧ p'.envAnn = p.envAnn ∧
  p'.strategy = p.strategy ∧
  p'.persistent = (p.persistent || q.persistent) ∧
  p'.required = (p.required || q.required)

theorem fieldOpts_Or_assoc (a b c : fieldOpts) :
    a.Or (b.Or c) = (a.Or b).Or c := by
  simp [fieldOpts.Or, Bool.or_assoc]

theorem paramOrRel_mkParam (tags : fieldTags) (o q : fieldOpts)
    (s : BindStrategy) :
    paramOrRel q (mkParam tags (o.Or q) s) (mkParam tags o s) := by
  simp [paramOrRel, mkParam, fieldOpts.Or]

mutual
theorem bindField_or (reg : List TypeId) :
    ∀ (f : GoStructField) (paramPrefix envPrefix : String)
      (p q : fieldOpts) (ps : List Param),
      bindField reg paramPrefix envPrefix p f = .ok ps →
      ∃ ps', bindField reg paramPrefix envPrefix (p.Or q) f = .ok ps' ∧
        List.Forall₂ (paramOrRel q) ps' ps
  | .mk fn tag ty, pp, ep, p, q, ps, hok => by
    rw [bindField] at hok ⊢
    cases hgt : getFieldTags pp ep fn tag with
    | error e =>
      rw [hgt] at hok
      simp only [bind, Except.bind] at hok
      cases hok
    | ok tags =>
      rw [hgt] at hok
      simp only [bind, Except.bind] at hok ⊢
      have hopts : tags.Opts.Or (p.Or q) = (tags.Opts.Or p).Or q :=
        fieldOpts_Or_assoc tags.Opts p q
      rw [hopts]
      cases ty with
      | builtin k =>
        simp only at hok ⊢
        cases hbb : builtinBind tags k with
        | error e =>
          rw [hbb] at hok
          simp only at hok
          cases hok
        | ok s =>
          rw [hbb] at hok
          simp only at hok ⊢
          cases hok
          exact ⟨_, rfl, List.forall₂_cons.mpr
            ⟨paramOrRel_mkParam tags (tags.Opts.Or p) q s, List.Forall₂.nil⟩⟩
      | named n pf tc =>
        simp only at hok ⊢
        cases h1 : reg.contains (.named n) with
        | true =>
          rw [h1] at hok
          simp only [if_true, reduceIte] at hok ⊢
          cases hok
          exact ⟨_, rfl, List.forall₂_cons.mpr
            ⟨paramOrRel_mkParam tags (tags.Opts.Or p) q _, List.Forall₂.nil⟩⟩
        | false =>
          rw [h1] at hok
          simp only [Bool.false_eq_true, if_false, reduceIte] at hok ⊢
          cases pf with
          | true =>
            simp only [if_true, reduceIte] at hok ⊢
            cases hok
            exact ⟨_, rfl, List.forall₂_cons.mpr
              ⟨paramOrRel_mkParam tags (tags.Opts.Or p) q _, List.Forall₂.nil⟩⟩
          | false =>
            simp only [Bool.false_eq_true, if_false, reduceIte] at hok ⊢
            cases tc with
            | true =>
              simp only [if_true, reduceIte] at hok ⊢
              cases hok
              exact ⟨_, rfl, List.forall₂_cons.mpr
                ⟨paramOrRel_mkParam tags (tags.Opts.Or p) q _, List.Forall₂.nil⟩⟩
            | false =>
              simp only [Bool.false_eq_true, if_false, reduceIte] at hok
              cases hok
      | structT n pf tc fields =>
        simp only at hok ⊢
        cases h1 : reg.contains (.named n) with
        | true =>
          rw [h1] at hok
          simp only [if_true, reduceIte] at hok ⊢
          cases hok
          exact ⟨_, rfl, List.forall₂_cons.mpr
            ⟨paramOrRel_mkParam tags (tags.Opts.Or p) q _, List.Forall₂.nil⟩⟩
        | false =>
          rw [h1] at hok
          simp only [Bool.false_eq_true, if_false, reduceIte] at hok ⊢
          cases pf with
          | true =>
            simp only [if_true, reduceIte] at hok ⊢
            cases hok
            exact ⟨_, rfl, List.forall₂_cons.mpr
              ⟨paramOrRel_mkParam tags (tags.Opts.Or p) q _, List.Forall₂.nil⟩⟩
          | false =>
            simp only [Bool.false_eq_true, if_false, reduceIte] at hok ⊢
            cases tc with
            | true =>
              simp only [if_true, reduceIte] at hok ⊢
              cases hok
              exact ⟨_, rfl, List.forall₂_cons.mpr
                ⟨paramOrRel_mkParam tags (tags.Opts.Or p) q _, List.Forall₂.nil⟩⟩
            | false =>
              simp only [Bool.false_eq_true, if_false, reduceIte] at hok ⊢
              by_cases h2 : fields.length > 0
              · rw [if_pos h2] at hok ⊢
                exact recurseStruct_or reg fields (tags.name ++ "-")
                  (if tags.HasEnv = true then tags.env ++ "_" else "")
                  (tags.Opts.Or p) q ps hok
              · rw [if_neg h2] at hok
                cases hok

theorem recurseStruct_or (reg : List TypeId) :
    ∀ (fs : List GoStructField) (paramPrefix envPrefix : String)
      (p q : fieldOpts) (ps : List Param),
      recurseStruct reg paramPrefix envPrefix p fs = .ok ps →
      ∃ ps', recurseStruct reg paramPrefix envPrefix (p.Or q) fs = .ok ps' ∧
        List.Forall₂ (paramOrRel q) ps' ps
  | [], pp, ep, p, q, ps, hok => by
    rw [recurseStruct] at hok ⊢
    cases hok
    exact ⟨[], rfl, List.Forall₂.nil⟩
  | f :: rest, pp, ep, p, q, ps, hok => by
    rw [recurseStruct] at hok ⊢
    cases hbf : bindField reg pp ep p f with
    | error e =>
      rw [hbf] at hok
      simp only [bind, Except.bind] at hok
      cases hok
    | ok ps₁ =>
      rw [hbf] at hok
      simp only [bind, Except.bind] at hok
      cases hrest : recurseStruct reg pp ep p rest with
      | error e =>
        rw [hrest] at hok
        simp only at hok
        cases hok
      | ok ps₂ =>
        rw [hrest] at hok
        simp only at hok
        cases hok
        obtain ⟨ps₁', h1, r1⟩ := bindField_or reg f pp ep p q ps₁ hbf
        obtain ⟨ps₂', h2, r2⟩ := recurseStruct_or reg rest pp ep p q ps₂ hrest
        rw [h1]
        simp only [bind, Except.bind]
        rw [h2]
        exact ⟨ps₁' ++ ps₂', rfl, List.rel_append r1 r2⟩
end

/-- The C9 schema: a record `Log` declared `flag:"persistent,required"`
containing a plain `Level` leaf with no annotations of its own. -/
def logSchema : List GoStructField :=
  [.mk "Log" { flag := "persistent,required" }
    (.structT 60 false false [.mk "Level" {} (.builtin .int)])]

/-- The leaf parameter registered for `Log.Level`: persistent and
required purely by inheritance from the record. -/
def logLevelParam : Param :=
  { name := "log-level", abbr := "", envAnn := none, usage := "(required)",
    persistent := true, required := true, strategy := .builtin .int }

/-- C9: enlarging the inherited option set of a walk ORs the extra
options into every produced leaf parameter, changing nothing else —
descending only ever adds options and never removes one; concretely, a
plain leaf nested under a record declared `persistent,required` is itself
persistent and required. -/
theorem opts_or_propagation :
    (∀ reg fs paramPrefix envPrefix p q ps,
      recurseStruct reg paramPrefix envPrefix p fs = .ok ps →
      ∃ ps', recurseStruct reg paramPrefix envPrefix (fieldOpts.Or p q) fs = .ok ps' ∧
        List.Forall₂ (paramOrRel q) ps' ps) ∧
    recurseStruct [] "" "" {} logSchema = .ok [logLevelParam] ∧
    logLevelParam.persistent = true ∧ logLevelParam.required = true := by
  exact ⟨fun reg fs pp ep p q ps h => recurseStruct_or reg fs pp ep p q ps h,
    by decide, rfl, rfl⟩

/-- Witness for C9 at a concrete input: re-walking a one-field schema
with the inherited options enlarged by `persistent` yields the same
parameter with `persistent` OR-ed in. -/
theorem opts_or_propagation_witness :
    ∃ ps', recurseStruct [] "" "" (fieldOpts.Or {} { persistent := true })
        [.mk "Level" {} (.builtin .int)] = .ok ps' ∧
      List.Forall₂ (paramOrRel { persistent := true }) ps'
        [{ name := "level", abbr := "", envAnn := none, usage := "",
           persistent := false, required := false,
           strategy := .builtin .int }] := by
  exact opts_or_propagation.1 [] [.mk "Level" {} (.builtin .int)] "" ""
    {} { persistent := true } _ (by decide)

end Nicecmd
